import Mathlib

/-!
Verification of the turn/phase progression controller of the "seaventura"
("Aventura Mizzou") web game.

The embedding follows the two source files:

* `src/types.ts` — the data model (`GameTurnData`, `ChatMessage`, `GameState`)
  and the service layer (`sendMessage` with its markdown-fence stripping,
  JSON parsing and placeholder fallback, and `generateBridgeResponse` with
  its fallback to the target context);
* `src/components/GameInterface.tsx` — the controller (`startQuest`,
  `handleEnglishSubmit`, `handleOptionSelect`).

Modelling conventions:

* Each React event handler runs to completion (including the awaited service
  response) before the next user event is processed; the `isProcessing` flag
  is `true` only inside a handler and `false` at every point where a new user
  event can be accepted, so handlers are modelled as atomic step functions
  and `isProcessing` is omitted from the state.  The outcome of each awaited
  service call is carried on the event itself.
* View-only data is omitted: message `id` (uuid), `timestamp`, and
  `groundingChunks` (passed through for display only), and the never-written
  `location` field of `GameState`.
* JS `JSON.parse` performs no shape validation: `parseJson` models the
  syntactic parse (a JS parse exception ↔ `none`), and a successfully
  parsed value is delivered as-is, with no placeholder substituted — as
  `TurnPayload.challenge` when it has the Challenge shape
  (`toGameTurnData`), and as `TurnPayload.garbage` otherwise (in JS such a
  value is installed as `turnData` and its missing fields read as
  `undefined`).  The placeholder fallback of `sendMessage` fires only on
  the syntactic parse failure, exactly as the source's `catch` does.  The
  typed `GameState` cannot hold a garbage object, so the raw-to-controller
  interpretation `deliveredChallenge` is only faithful on
  throw/placeholder/Challenge outcomes; no theorem below runs a garbage
  delivery through the controller.
* JS `String.prototype.trim` is modelled by `jsTrim` (ASCII whitespace,
  which is all that occurs here).
-/

set_option maxRecDepth 8192

namespace Seaventura

/-! ## Data model (src/types.ts) -/

/-- The `Sender` enum from src/types.ts. -/
inductive Sender
  | user
  | model
  | system
deriving DecidableEq

/-- The `turnStep`/`step` values `'concept' | 'grammar'` from src/types.ts. -/
inductive TurnStep
  | concept
  | grammar
deriving DecidableEq

/-- The `status` values of `GameState` in src/types.ts:
`'intro' | 'playing' | 'loading' | 'finished' | 'error'`.
(The spec calls these not-started / active / loading / finished / failed.) -/
inductive Status
  | intro
  | playing
  | loading
  | finished
  | error
deriving DecidableEq

/-- Structure `GameTurnData` from src/types.ts: the structured data returned by the AI
for a game turn.  `isGameOver` is optional in the source (`isGameOver?`),
hence `Option Bool`. -/
structure GameTurnData where
  locationName : String
  locationType : String
  englishQuestion : String
  spanishConcept : String
  question : String
  options : List String
  correctAnswer : String
  explanation : String
  isGameOver : Option Bool
deriving DecidableEq

/-- Structure `ChatMessage` from src/types.ts, minus the view-only `id`, `timestamp`
and `groundingChunks` fields (ids are uuids and timestamps wall-clock; the
grounding chunks are passed through to the rendering layer untouched). -/
structure ChatMessage where
  role : Sender
  text : Option String
  structuredContent : Option GameTurnData
  isCorrect : Option Bool
  step : Option TurnStep
deriving DecidableEq

/-- Structure `GameState` from src/types.ts, minus the `location` field, which is
initialised to `null` and never written anywhere in the source. -/
structure GameState where
  status : Status
  currentTurn : Nat
  maxTurns : Nat
  activeChallenge : Option GameTurnData
  turnStep : TurnStep
deriving DecidableEq

/-- The `feedbackMessage` type values in GameInterface.tsx:
`'success' | 'error'`. -/
inductive FeedbackType
  | success
  | error
deriving DecidableEq

/-- The `feedbackMessage` state in GameInterface.tsx:
`{text: string, type: 'success' | 'error'} | null`. -/
structure Feedback where
  text : String
  type : FeedbackType
deriving DecidableEq

/-! ## JS string helpers -/

/-- ASCII whitespace, as relevant to `String.prototype.trim` here. -/
def isWsChar (c : Char) : Bool :=
  c == ' ' || c == '\n' || c == '\t' || c == '\r'

/-- JS `String.prototype.trim` on the underlying character list. -/
def trimChars (cs : List Char) : List Char :=
  ((cs.dropWhile isWsChar).reverse.dropWhile isWsChar).reverse

/-- JS `String.prototype.trim`. -/
def jsTrim (s : String) : String :=
  ⟨trimChars s.data⟩

/-! ## JSON (the `JSON.parse` call in src/types.ts `sendMessage`) -/

/-- JSON values.  Number lexemes are kept as strings: the Challenge payload
has no numeric field, so their value is never consulted. -/
inductive Json
  | jnull
  | jbool (b : Bool)
  | jnum (lexeme : String)
  | jstr (s : String)
  | jarr (elems : List Json)
  | jobj (members : List (String × Json))

/-- Skip JSON whitespace. -/
def skipWs : List Char → List Char
  | [] => []
  | c :: cs => if isWsChar c then skipWs cs else c :: cs

/-- Value of a hexadecimal digit, for `\uXXXX` escapes. -/
def hexDigitVal (c : Char) : Option Nat :=
  if '0' ≤ c ∧ c ≤ '9' then some (c.toNat - '0'.toNat)
  else if 'a' ≤ c ∧ c ≤ 'f' then some (c.toNat - 'a'.toNat + 10)
  else if 'A' ≤ c ∧ c ≤ 'F' then some (c.toNat - 'A'.toNat + 10)
  else none

/-- Parse the body of a JSON string literal (after the opening quote),
returning the decoded content and the remaining input after the closing
quote. -/
def parseStringBody : List Char → Option (List Char × List Char)
  | [] => none
  | '"' :: rest => some ([], rest)
  | '\\' :: 'u' :: h1 :: h2 :: h3 :: h4 :: rest => do
    let a ← hexDigitVal h1
    let b ← hexDigitVal h2
    let c ← hexDigitVal h3
    let d ← hexDigitVal h4
    let code := ((a * 16 + b) * 16 + c) * 16 + d
    let (s, r) ← parseStringBody rest
    some ((Char.ofNat code) :: s, r)
  | '\\' :: e :: rest => do
    let c ← match e with
      | '"' => some '"'
      | '\\' => some '\\'
      | '/' => some '/'
      | 'b' => some (Char.ofNat 8)
      | 'f' => some (Char.ofNat 12)
      | 'n' => some '\n'
      | 'r' => some '\r'
      | 't' => some '\t'
      | _ => none
    let (s, r) ← parseStringBody rest
    some (c :: s, r)
  | c :: rest => do
    let (s, r) ← parseStringBody rest
    some (c :: s, r)

/-- Characters that may occur in a JSON number lexeme. -/
def numChar (c : Char) : Bool :=
  c.isDigit || c == '-' || c == '+' || c == '.' || c == 'e' || c == 'E'

mutual

/-- Parse one JSON value.  Fuelled so that recursion is structural; the fuel
supplied by `parseJson` always suffices since every recursive call consumes
input. -/
def parseValue : Nat → List Char → Option (Json × List Char)
  | 0, _ => none
  | fuel + 1, cs =>
    match skipWs cs with
    | 'n' :: 'u' :: 'l' :: 'l' :: rest => some (.jnull, rest)
    | 't' :: 'r' :: 'u' :: 'e' :: rest => some (.jbool true, rest)
    | 'f' :: 'a' :: 'l' :: 's' :: 'e' :: rest => some (.jbool false, rest)
    | '"' :: rest => (parseStringBody rest).map fun p => (.jstr ⟨p.1⟩, p.2)
    | '[' :: rest =>
      (match skipWs rest with
       | ']' :: rest' => some (.jarr [], rest')
       | other => (parseElems fuel other).map fun p => (.jarr p.1, p.2))
    | '\x7b' :: rest =>
      (match skipWs rest with
       | '\x7d' :: rest' => some (.jobj [], rest')
       | other => (parseMembers fuel other).map fun p => (.jobj p.1, p.2))
    | c :: rest =>
      if numChar c then
        let p := List.span numChar (c :: rest)
        some (.jnum ⟨p.1⟩, p.2)
      else none
    | [] => none

/-- Parse the elements of a non-empty JSON array, up to and including the
closing bracket. -/
def parseElems : Nat → List Char → Option (List Json × List Char)
  | 0, _ => none
  | fuel + 1, cs => do
    let (v, rest) ← parseValue fuel cs
    match skipWs rest with
    | ',' :: rest' => (parseElems fuel rest').map fun p => (v :: p.1, p.2)
    | ']' :: rest' => some ([v], rest')
    | _ => none

/-- Parse the members of a non-empty JSON object, up to and including the
closing brace. -/
def parseMembers : Nat → List Char → Option (List (String × Json) × List Char)
  | 0, _ => none
  | fuel + 1, cs =>
    match skipWs cs with
    | '"' :: rest => do
      let (k, rest1) ← parseStringBody rest
      match skipWs rest1 with
      | ':' :: rest2 => do
        let (v, rest3) ← parseValue fuel rest2
        match skipWs rest3 with
        | ',' :: rest4 => (parseMembers fuel rest4).map fun p => ((⟨k⟩, v) :: p.1, p.2)
        | '\x7d' :: rest4 => some ([(⟨k⟩, v)], rest4)
        | _ => none
      | _ => none
    | _ => none

end

/-- Model of `JSON.parse`: parse a full JSON document (the whole input must be
consumed, up to trailing whitespace). -/
def parseJson (s : String) : Option Json :=
  match parseValue (s.data.length + 1) s.data with
  | some (j, rest) => if skipWs rest = [] then some j else none
  | none => none

/-- Look a key up in a parsed JSON object. -/
def jsonLookup (kvs : List (String × Json)) (k : String) : Option Json :=
  (kvs.find? fun p => p.1 == k).map fun p => p.2

def asString : Json → Option String
  | .jstr s => some s
  | _ => none

def asStringList : Json → Option (List String)
  | .jarr xs => xs.mapM asString
  | _ => none

def asBool : Json → Option Bool
  | .jbool b => some b
  | _ => none

/-- Read a parsed JSON value as the `GameTurnData` shape that `sendMessage`
in src/types.ts assigns it to. -/
def toGameTurnData : Json → Option GameTurnData
  | .jobj kvs => do
    let locationName ← jsonLookup kvs "locationName" >>= asString
    let locationType ← jsonLookup kvs "locationType" >>= asString
    let englishQuestion ← jsonLookup kvs "englishQuestion" >>= asString
    let spanishConcept ← jsonLookup kvs "spanishConcept" >>= asString
    let question ← jsonLookup kvs "question" >>= asString
    let options ← jsonLookup kvs "options" >>= asStringList
    let correctAnswer ← jsonLookup kvs "correctAnswer" >>= asString
    let explanation ← jsonLookup kvs "explanation" >>= asString
    let isGameOver := (jsonLookup kvs "isGameOver").bind asBool
    some { locationName, locationType, englishQuestion, spanishConcept,
           question, options, correctAnswer, explanation, isGameOver }
  | _ => none

/-- Parse a cleaned service payload into a Challenge. -/
def parseGameTurn (s : String) : Option GameTurnData :=
  (parseJson s).bind toGameTurnData

/-! ## Markdown-fence stripping (src/types.ts, `sendMessage`)

The source runs `text.replace(/```json\n?|\n?```/g, "")`: a global scan that,
at each position, first tries to match ```` ```json ```` with an optional
trailing newline, then an optional newline followed by ```` ``` ````. -/

/-- The three-backtick open/close marker. -/
def tick3 : List Char := ['\x60', '\x60', '\x60']

/-- A newline followed by three backticks (the second regex alternative at
a position holding a newline). -/
def tick3nl : List Char := ['\n', '\x60', '\x60', '\x60']

/-- After a bare ```` ``` ```` matched, the first regex alternative further
consumes `json` and an optional newline when present. -/
def dropJson (cs : List Char) : List Char :=
  if ['j', 's', 'o', 'n', '\n'].isPrefixOf cs then cs.drop 5
  else if ['j', 's', 'o', 'n'].isPrefixOf cs then cs.drop 4
  else cs

/-- One global-replace scan of `/```json\n?|\n?```/g` with empty replacement.
Fuelled for structural recursion; each recursive call consumes at least one
character, so fuel = input length always suffices (and when fuel runs out the
remaining input is returned unchanged, which never happens with that fuel). -/
def stripAux : Nat → List Char → List Char
  | 0, cs => cs
  | _ + 1, [] => []
  | fuel + 1, c :: cs =>
    if tick3nl.isPrefixOf (c :: cs) then stripAux fuel ((c :: cs).drop 4)
    else if tick3.isPrefixOf (c :: cs) then stripAux fuel (dropJson ((c :: cs).drop 3))
    else c :: stripAux fuel cs

/-- The call `text.replace(/```json\n?|\n?```/g, "")`. -/
def stripFences (s : String) : String :=
  ⟨stripAux s.data.length s.data⟩

/-! ## Service layer (src/types.ts) -/

/-- The placeholder Challenge substituted by `sendMessage` when
`JSON.parse` throws. -/
def connectionErrorData : GameTurnData :=
  { locationName := "Connection Error"
    locationType := "park"
    englishQuestion := "Something went wrong. Can you reload?"
    spanishConcept := "Error"
    question := "Try refreshing the page."
    options := ["Reload"]
    correctAnswer := "Reload"
    explanation := "JSON Parse Error"
    isGameOver := some false }

/-- Outcome of the underlying chat API call inside `sendMessage`:
either the call (or `initChat` before it) threw, or it returned with
`result.text` (possibly absent — JS `undefined`). -/
inductive SendResult
  | fail
  | ok (raw : Option String)
deriving DecidableEq

/-- The cleanup in `sendMessage`: `let text = result.text || "{}"` (the empty
string is falsy in JS, hence also replaced), then fence stripping and
trimming. -/
def cleanText (raw : Option String) : String :=
  let t := match raw with
    | none => "\x7b\x7d"
    | some s => if s = "" then "\x7b\x7d" else s
  jsTrim (stripFences t)

/-- What the `JSON.parse` call in `sendMessage` delivers as `turnData` when
it does not throw: the parsed value, cast to `GameTurnData` with **no**
shape validation.  A value with the Challenge shape is a real
`GameTurnData`; any other JSON value (for example the object parsed from
the source's own `"{}"` default for an empty response) is installed as-is
— in JS its missing fields simply read as `undefined`. -/
inductive TurnPayload
  | challenge (td : GameTurnData)
  | garbage (j : Json)

/-- Function `sendMessage` from src/types.ts: `none` means the call threw
(the source rethrows after logging).  Otherwise the cleaned text is run
through `JSON.parse`; the `catch` substitutes the placeholder Challenge
only when that syntactic parse throws, and a successfully parsed value is
returned as `turnData` unvalidated, whether or not it is Challenge-shaped. -/
def sendMessage : SendResult → Option TurnPayload
  | .fail => none
  | .ok raw =>
    match parseJson (cleanText raw) with
    | none => some (.challenge connectionErrorData)
    | some j =>
      match toGameTurnData j with
      | some td => some (.challenge td)
      | none => some (.garbage j)

/-- Function `generateBridgeResponse` from src/types.ts.  The first argument is the
outcome of the single-shot generation: `some t` for a response with text `t`
(the source returns `response.text.trim()`), `none` when the API call throws
or `response.text` is undefined (in which case `.trim()` throws inside the
`try`); in both failure cases the source returns `targetContext` unchanged.
This function itself never throws. -/
def generateBridgeResponse : Option String → String → String
  | some t, _ => jsTrim t
  | none, targetContext => targetContext

/-! ## Controller (src/components/GameInterface.tsx) -/

/-- Constant `TOTAL_TURNS` in GameInterface.tsx. -/
def TOTAL_TURNS : Nat := 10

/-- The controller's full React state: `messages`, `gameState`,
`feedbackMessage` (the transient `englishInput` text-box value is carried on
the submission event, and `isProcessing` is always false at event
boundaries — see the header comment). -/
structure ControllerState where
  messages : List ChatMessage
  gameState : GameState
  feedbackMessage : Option Feedback
deriving DecidableEq

/-- External requests a handler can issue, for tracking that no (or exactly
the expected) service calls happen. -/
inductive ServiceCall
  | initChat
  | send (message : String)
  | bridge (userInput : String) (targetContext : String)
deriving DecidableEq

/-- The initial `useState` values in GameInterface.tsx. -/
def initState : ControllerState :=
  { messages := []
    gameState :=
      { status := .intro
        currentTurn := 1
        maxTurns := TOTAL_TURNS
        activeChallenge := none
        turnStep := .concept }
    feedbackMessage := none }

/-- The ChatMessage built for a delivered Challenge (`initialMessage` /
`modelMsg` in the source). -/
def turnMessage (td : GameTurnData) : ChatMessage :=
  { role := .model, text := none, structuredContent := some td,
    isCorrect := none, step := some .concept }

/-- Handler `startQuest` in GameInterface.tsx (run once on mount).  `fetch` is the
result of `sendMessage("START_GAME_MIZZOU_EDITION")`: `none` when
`initChat`/`sendMessage` threw.  The transient `status := 'loading'` set
before the await is subsumed by the handler's final state. -/
def startQuest (s : ControllerState) (fetch : Option GameTurnData) :
    ControllerState × List ServiceCall :=
  let calls := [ServiceCall.initChat, ServiceCall.send "START_GAME_MIZZOU_EDITION"]
  match fetch with
  | none =>
    ({ s with gameState := { s.gameState with status := .error } }, calls)
  | some td =>
    ({ s with
        messages := [turnMessage td]
        gameState := { s.gameState with
          status := .playing
          currentTurn := 1
          activeChallenge := some td
          turnStep := .concept } }, calls)

/-- Handler `handleEnglishSubmit` in GameInterface.tsx.  `bridgeOutcome` is the
outcome fed to `generateBridgeResponse` (which never throws, so the
handler's own `catch` branch is dead code).  The guard
`!englishInput.trim() || isProcessing || !gameState.activeChallenge`
reduces to the two checks below at an event boundary. -/
def handleEnglishSubmit (s : ControllerState) (input : String)
    (bridgeOutcome : Option String) : ControllerState × List ServiceCall :=
  match s.gameState.activeChallenge with
  | none => (s, [])
  | some ch =>
    if jsTrim input = "" then (s, [])
    else
      let userMsg : ChatMessage :=
        { role := .user, text := some input, structuredContent := none,
          isCorrect := none, step := some .concept }
      let bridgeText := generateBridgeResponse bridgeOutcome ch.spanishConcept
      ({ s with
          messages := s.messages ++ [userMsg]
          gameState := { s.gameState with
            activeChallenge := some { ch with spanishConcept := bridgeText }
            turnStep := .grammar } },
       [ServiceCall.bridge input ch.spanishConcept])

/-- The ChatMessage recorded for a phase-2 answer (`userMsg` in
`handleOptionSelect`). -/
def gradeMessage (choice : String) (isCorrect : Bool) : ChatMessage :=
  { role := .user, text := some choice, structuredContent := none,
    isCorrect := some isCorrect, step := some .grammar }

/-- The state right after a correct phase-2 answer is recorded: the success
feedback has been set and (after the 1.5 s pacing delay) cleared again, and
`activeChallenge` has been set to `null` to disable inputs. -/
def clearedAfterCorrect (s : ControllerState) (choice : String) : ControllerState :=
  { s with
      messages := s.messages ++ [gradeMessage choice true]
      feedbackMessage := none
      gameState := { s.gameState with activeChallenge := none } }

/-- Handler `handleOptionSelect` in GameInterface.tsx.  `fetch` is the result of the
`sendMessage` call for the next turn (`none` when it threw); it is ignored on
the paths that issue no call.  The guard `isProcessing || !activeChallenge`
reduces to the Challenge check at an event boundary. -/
def handleOptionSelect (s : ControllerState) (choice : String)
    (fetch : Option GameTurnData) : ControllerState × List ServiceCall :=
  match s.gameState.activeChallenge with
  | none => (s, [])
  | some ch =>
    if choice = ch.correctAnswer then
      let s2 := clearedAfterCorrect s choice
      if s.gameState.currentTurn ≥ s.gameState.maxTurns then
        ({ s2 with gameState := { s2.gameState with status := .finished } }, [])
      else
        let s3 := { s2 with
          gameState := { s2.gameState with currentTurn := s2.gameState.currentTurn + 1 } }
        let call := ServiceCall.send ("NEXT_TURN_" ++ toString (s.gameState.currentTurn + 1))
        match fetch with
        | none => (s3, [call])
        | some td =>
          ({ s3 with
              messages := s3.messages ++ [turnMessage td]
              gameState := { s3.gameState with
                activeChallenge := some td
                turnStep := .concept } }, [call])
    else
      ({ s with
          messages := s.messages ++ [gradeMessage choice false]
          feedbackMessage := some
            { text := "Incorrect. " ++ ch.explanation ++ " Try again!",
              type := .error } }, [])

/-- A user-driven controller event, carrying the outcome of the service call
the handler awaits (already run through the service layer, i.e. at the
`Option GameTurnData` / bridge-text level). -/
inductive UserEvent
  | english (input : String) (bridgeOutcome : Option String)
  | select (choice : String) (fetch : Option GameTurnData)
deriving DecidableEq

/-- Dispatch one user event to its handler. -/
def stepUser (s : ControllerState) : UserEvent → ControllerState × List ServiceCall
  | .english input b => handleEnglishSubmit s input b
  | .select choice f => handleOptionSelect s choice f

/-- One step of the session fold: dispatch the event from the current state
and append the issued calls to the log. -/
def stepPair (acc : ControllerState × List ServiceCall) (e : UserEvent) :
    ControllerState × List ServiceCall :=
  let r := stepUser acc.1 e
  (r.1, acc.2 ++ r.2)

/-- Run a session: `startQuest` (fired once on mount, with initial-fetch
outcome `fetch0`) followed by the user events, accumulating the service-call
log. -/
def run (fetch0 : Option GameTurnData) (evs : List UserEvent) :
    ControllerState × List ServiceCall :=
  evs.foldl stepPair (startQuest initState fetch0)

/-- A user event at the raw service level: fetch outcomes are `SendResult`s
still to be run through `sendMessage`. -/
inductive RawEvent
  | english (input : String) (bridgeOutcome : Option String)
  | select (choice : String) (r : SendResult)
deriving DecidableEq

/-- A `sendMessage` outcome as the typed controller model sees it: the
thrown (`none`) and Challenge/placeholder (`TurnPayload.challenge`) cases
are mapped faithfully.  `GameState.activeChallenge : Option GameTurnData`
cannot hold a garbage JS object, so garbage deliveries are outside this
abstraction (collapsed to `none`); no theorem below runs a raw event whose
payload is garbage. -/
def deliveredChallenge : Option TurnPayload → Option GameTurnData
  | some (.challenge td) => some td
  | _ => none

/-- Interpret the service layer on a raw event. -/
def toUserEvent : RawEvent → UserEvent
  | .english i b => .english i b
  | .select c r => .select c (deliveredChallenge (sendMessage r))

/-- Run a session from raw service outcomes. -/
def runRaw (r0 : SendResult) (evs : List RawEvent) :
    ControllerState × List ServiceCall :=
  run (deliveredChallenge (sendMessage r0)) (evs.map toUserEvent)

/-! ## Auxiliary predicates and observation functions -/

/-- Whether a character list contains three consecutive backticks (the only
substrings the fence-stripping regex can act on). -/
def hasTripleTick : List Char → Bool
  | [] => false
  | [_] => false
  | [_, _] => false
  | c1 :: c2 :: c3 :: rest =>
    (c1 == '\x60' && c2 == '\x60' && c3 == '\x60') || hasTripleTick (c2 :: c3 :: rest)

/-- Returns `true` unless the event is a phase-2 selection whose next-turn fetch
threw. -/
def fetchOk : UserEvent → Bool
  | .select _ none => false
  | _ => true

/-- Erase the `isGameOver` flag of a Challenge. -/
def scrubTd (td : GameTurnData) : GameTurnData :=
  { td with isGameOver := none }

/-- Erase the `isGameOver` flag inside a chat message. -/
def scrubMsg (m : ChatMessage) : ChatMessage :=
  { m with structuredContent := m.structuredContent.map scrubTd }

/-- Erase every stored copy of the `isGameOver` flag from the controller
state.  Two states with equal scrubs agree on everything the controller (or
the user) can observe except the flag itself. -/
def scrubState (s : ControllerState) : ControllerState :=
  { s with
      messages := s.messages.map scrubMsg
      gameState := { s.gameState with
        activeChallenge := s.gameState.activeChallenge.map scrubTd } }

/-- Erase the `isGameOver` flag from the Challenge delivered by an event's
fetch outcome. -/
def scrubEvent : UserEvent → UserEvent
  | .english i b => .english i b
  | .select c f => .select c (f.map scrubTd)

/-! ## Concrete sample data for witnesses -/

/-- A realistic raw service payload (the JSON object the system instruction
in src/types.ts requests). -/
def samplePayload : String :=
  "\x7b\"locationName\": \"Ellis Library\", \"locationType\": \"library\", \"englishQuestion\": \"What is the main rule?\", \"spanishConcept\": \"Se exige silencio\", \"question\": \"Aqui _____ (exigir) silencio.\", \"options\": [\"Se exige\", \"Busca\", \"Se buscan\"], \"correctAnswer\": \"Se exige\", \"explanation\": \"Singular object.\", \"isGameOver\": false\x7d"

/-- The Challenge `samplePayload` denotes. -/
def sampleTd : GameTurnData :=
  { locationName := "Ellis Library"
    locationType := "library"
    englishQuestion := "What is the main rule?"
    spanishConcept := "Se exige silencio"
    question := "Aqui _____ (exigir) silencio."
    options := ["Se exige", "Busca", "Se buscan"]
    correctAnswer := "Se exige"
    explanation := "Singular object."
    isGameOver := some false }

/-- A mid-game state in phase 2 ("grammar") with `sampleTd` active. -/
def grammarState : ControllerState :=
  { messages := []
    feedbackMessage := none
    gameState :=
      { status := .playing
        currentTurn := 1
        maxTurns := 10
        activeChallenge := some sampleTd
        turnStep := .grammar } }

/-- State `grammarState` on the final turn (`currentTurn = maxTurns`). -/
def lastTurnState : ControllerState :=
  { grammarState with
      gameState := { grammarState.gameState with currentTurn := 10 } }

/-- Challenge `sampleTd` with the opposite `isGameOver` flag (for the
noninterference witness). -/
def gameOverVariant : GameTurnData :=
  { sampleTd with isGameOver := some true }

/-! ## General lemmas about the controller step functions -/

/-- With no active Challenge, both handlers bail out without any change or
service call (the `!gameState.activeChallenge` guards). -/
theorem stepUser_noop (s : ControllerState) (e : UserEvent)
    (h : s.gameState.activeChallenge = none) : stepUser s e = (s, []) := by
  cases e with
  | english input b => simp [stepUser, handleEnglishSubmit, h]
  | select choice f => simp [stepUser, handleOptionSelect, h]

/-- The controller's fold, projected to the state component. -/
theorem foldl_pair_fst (evs : List UserEvent) :
    ∀ acc : ControllerState × List ServiceCall,
      (evs.foldl stepPair acc).1
        = evs.foldl (fun s e => (stepUser s e).1) acc.1 := by
  induction evs with
  | nil => intro acc; rfl
  | cons e t ih => intro acc; simp only [List.foldl_cons]; exact ih _

/-- Lemma: `run`, projected to the state component. -/
theorem run_fst (fetch0 : Option GameTurnData) (evs : List UserEvent) :
    (run fetch0 evs).1
      = evs.foldl (fun s e => (stepUser s e).1) (startQuest initState fetch0).1 := by
  unfold run
  exact foldl_pair_fst evs _

/-- Appending one event steps the run's state once more. -/
theorem run_fst_append (fetch0 : Option GameTurnData) (evs : List UserEvent)
    (e : UserEvent) :
    (run fetch0 (evs ++ [e])).1 = (stepUser (run fetch0 evs).1 e).1 := by
  rw [run_fst, run_fst, List.foldl_append]
  rfl

/-- A state predicate preserved by every step holds after any fold. -/
theorem foldl_inv {P : ControllerState → Prop}
    (hP : ∀ s e, P s → P (stepUser s e).1) (evs : List UserEvent) :
    ∀ s, P s → P (evs.foldl (fun s e => (stepUser s e).1) s) := by
  induction evs with
  | nil => intro s h; exact h
  | cons e t ih =>
    intro s h
    simp only [List.foldl_cons]
    exact ih _ (hP s e h)

/-- A state predicate preserved by every step satisfying `Q` holds after any
fold over events that all satisfy `Q`. -/
theorem foldl_inv_all {P : ControllerState → Prop} {Q : UserEvent → Bool}
    (hP : ∀ s e, Q e = true → P s → P (stepUser s e).1) (evs : List UserEvent) :
    ∀ s, evs.all Q = true → P s →
      P (evs.foldl (fun s e => (stepUser s e).1) s) := by
  induction evs with
  | nil => intro s _ h; exact h
  | cons e t ih =>
    intro s hall h
    simp only [List.all_cons, Bool.and_eq_true] at hall
    simp only [List.foldl_cons]
    exact ih _ hall.2 (hP s e hall.1 h)

/-- One step never decreases the turn counter. -/
theorem stepUser_turn_mono (s : ControllerState) (e : UserEvent) :
    s.gameState.currentTurn ≤ (stepUser s e).1.gameState.currentTurn := by
  cases e with
  | english input b =>
    simp only [stepUser, handleEnglishSubmit]
    split
    · exact le_refl _
    · split
      · exact le_refl _
      · simp
  | select choice f =>
    simp only [stepUser, handleOptionSelect]
    split
    · exact le_refl _
    · split
      · split
        · simp [clearedAfterCorrect]
        · cases f <;> simp [clearedAfterCorrect]
      · simp

/-- One step preserves the turn bounds `1 ≤ currentTurn ≤ maxTurns` (the
increment is guarded by `currentTurn >= maxTurns` returning early). -/
theorem stepUser_turn_bounds (s : ControllerState) (e : UserEvent)
    (h : 1 ≤ s.gameState.currentTurn ∧
      s.gameState.currentTurn ≤ s.gameState.maxTurns) :
    1 ≤ (stepUser s e).1.gameState.currentTurn ∧
      (stepUser s e).1.gameState.currentTurn ≤ (stepUser s e).1.gameState.maxTurns := by
  obtain ⟨h1, h2⟩ := h
  cases e with
  | english input b =>
    simp only [stepUser, handleEnglishSubmit]
    split
    · exact ⟨h1, h2⟩
    · split
      · exact ⟨h1, h2⟩
      · simpa using ⟨h1, h2⟩
  | select choice f =>
    simp only [stepUser, handleOptionSelect]
    split
    · exact ⟨h1, h2⟩
    · split
      · split
        · simpa [clearedAfterCorrect] using ⟨h1, h2⟩
        · next hlt =>
          cases f
          · simp only [clearedAfterCorrect]
            simp only [ge_iff_le, not_le] at hlt
            simp
            omega
          · simp only [clearedAfterCorrect]
            simp only [ge_iff_le, not_le] at hlt
            simp
            omega
      · simpa using ⟨h1, h2⟩

/-- Folding user events over a state with no active Challenge changes
nothing and issues no calls. -/
theorem foldl_stuck (evs : List UserEvent) :
    ∀ acc : ControllerState × List ServiceCall,
      acc.1.gameState.activeChallenge = none →
      evs.foldl stepPair acc = acc := by
  induction evs with
  | nil => intro acc h; rfl
  | cons e t ih =>
    intro acc h
    simp only [List.foldl_cons, stepPair]
    rw [stepUser_noop acc.1 e h]
    simpa using ih acc h

/-! ## Claim theorems -/

/-- C2: for every session and every sequence of controller events,
`currentTurn` starts at 1, is monotonically non-decreasing, and never
exceeds `maxTurns`. -/
theorem currentTurn_monotone_bounded :
    ∀ (fetch0 : Option GameTurnData) (evs : List UserEvent),
      (run fetch0 []).1.gameState.currentTurn = 1 ∧
      1 ≤ (run fetch0 evs).1.gameState.currentTurn ∧
      (run fetch0 evs).1.gameState.currentTurn
        ≤ (run fetch0 evs).1.gameState.maxTurns ∧
      ∀ e : UserEvent,
        (run fetch0 evs).1.gameState.currentTurn
          ≤ (run fetch0 (evs ++ [e])).1.gameState.currentTurn := by
  intro fetch0 evs
  have hbounds : 1 ≤ (run fetch0 evs).1.gameState.currentTurn ∧
      (run fetch0 evs).1.gameState.currentTurn
        ≤ (run fetch0 evs).1.gameState.maxTurns := by
    rw [run_fst]
    refine foldl_inv (fun s e h => stepUser_turn_bounds s e h) evs _ ?_
    cases fetch0 with
    | none => exact ⟨by decide, by decide⟩
    | some td =>
      constructor <;> simp [startQuest, initState, TOTAL_TURNS]
  refine ⟨?_, hbounds.1, hbounds.2, ?_⟩
  · cases fetch0 <;> rfl
  · intro e
    rw [run_fst_append]
    exact stepUser_turn_mono _ e

/-- C4: in an active grammar-phase state, submitting a choice different
from `correctAnswer` leaves `turnStep`, `activeChallenge` and `currentTurn`
unchanged, appends exactly one chat entry, surfaces the Challenge's
`explanation` as error feedback, and issues no service call. -/
theorem wrongChoice_frame (s : ControllerState) (ch : GameTurnData)
    (choice : String) (fetch : Option GameTurnData)
    (hch : s.gameState.activeChallenge = some ch)
    (_hstep : s.gameState.turnStep = TurnStep.grammar)
    (_hstatus : s.gameState.status = Status.playing)
    (hw : choice ≠ ch.correctAnswer) :
    (stepUser s (.select choice fetch)).1.gameState.turnStep = s.gameState.turnStep ∧
    (stepUser s (.select choice fetch)).1.gameState.activeChallenge
      = s.gameState.activeChallenge ∧
    (stepUser s (.select choice fetch)).1.gameState.currentTurn
      = s.gameState.currentTurn ∧
    (stepUser s (.select choice fetch)).1.messages
      = s.messages ++ [gradeMessage choice false] ∧
    (stepUser s (.select choice fetch)).1.feedbackMessage =
      some { text := "Incorrect. " ++ ch.explanation ++ " Try again!",
             type := FeedbackType.error } ∧
    (stepUser s (.select choice fetch)).2 = ([] : List ServiceCall) := by
  simp [stepUser, handleOptionSelect, hch, hw]

/-- Witness for C4 at a concrete grammar-phase state and wrong choice. -/
theorem wrongChoice_frame_witness :
    (stepUser grammarState (.select "Busca" none)).1.gameState.turnStep
      = grammarState.gameState.turnStep ∧
    (stepUser grammarState (.select "Busca" none)).1.gameState.activeChallenge
      = grammarState.gameState.activeChallenge ∧
    (stepUser grammarState (.select "Busca" none)).1.gameState.currentTurn
      = grammarState.gameState.currentTurn ∧
    (stepUser grammarState (.select "Busca" none)).1.messages
      = grammarState.messages ++ [gradeMessage "Busca" false] ∧
    (stepUser grammarState (.select "Busca" none)).1.feedbackMessage =
      some { text := "Incorrect. " ++ sampleTd.explanation ++ " Try again!",
             type := FeedbackType.error } ∧
    (stepUser grammarState (.select "Busca" none)).2 = ([] : List ServiceCall) :=
  wrongChoice_frame grammarState sampleTd "Busca" none rfl rfl rfl (by decide)

/-- C5: in an active grammar-phase state with `currentTurn >= maxTurns`,
submitting the correct choice transitions `status` to `finished`, issues no
service call, and every later event is a no-op. -/
theorem finalTurn_finishes (s : ControllerState) (ch : GameTurnData)
    (choice : String) (fetch : Option GameTurnData)
    (hch : s.gameState.activeChallenge = some ch)
    (_hstep : s.gameState.turnStep = TurnStep.grammar)
    (_hstatus : s.gameState.status = Status.playing)
    (hc : choice = ch.correctAnswer)
    (hmax : s.gameState.currentTurn ≥ s.gameState.maxTurns) :
    (stepUser s (.select choice fetch)).1.gameState.status = Status.finished ∧
    (stepUser s (.select choice fetch)).2 = ([] : List ServiceCall) ∧
    ∀ e : UserEvent,
      stepUser (stepUser s (.select choice fetch)).1 e
        = ((stepUser s (.select choice fetch)).1, []) := by
  refine ⟨?_, ?_, ?_⟩
  · simp [stepUser, handleOptionSelect, hch, hc, hmax, clearedAfterCorrect]
  · simp [stepUser, handleOptionSelect, hch, hc, hmax]
  · intro e
    apply stepUser_noop
    simp [stepUser, handleOptionSelect, hch, hc, hmax, clearedAfterCorrect]

/-- Witness for C5 at a concrete final-turn state. -/
theorem finalTurn_finishes_witness :
    (stepUser lastTurnState (.select "Se exige" none)).1.gameState.status
      = Status.finished ∧
    (stepUser lastTurnState (.select "Se exige" none)).2 = ([] : List ServiceCall) ∧
    ∀ e : UserEvent,
      stepUser (stepUser lastTurnState (.select "Se exige" none)).1 e
        = ((stepUser lastTurnState (.select "Se exige" none)).1, []) :=
  finalTurn_finishes lastTurnState sampleTd "Se exige" none rfl rfl rfl rfl
    (by decide)

/-- C6: in an active grammar-phase state with `currentTurn < maxTurns`,
submitting the correct choice first clears `activeChallenge` (the
`clearedAfterCorrect` stage the handler goes through), increments
`currentTurn` by one, issues exactly one next-turn service request, and —
once the fetched Challenge arrives — installs it with `turnStep` back to
`concept`. -/
theorem correctChoice_nextTurn (s : ControllerState) (ch : GameTurnData)
    (choice : String) (td : GameTurnData)
    (hch : s.gameState.activeChallenge = some ch)
    (_hstep : s.gameState.turnStep = TurnStep.grammar)
    (_hstatus : s.gameState.status = Status.playing)
    (hc : choice = ch.correctAnswer)
    (hlt : s.gameState.currentTurn < s.gameState.maxTurns) :
    (clearedAfterCorrect s choice).gameState.activeChallenge = none ∧
    (stepUser s (.select choice (some td))).1.gameState.currentTurn
      = s.gameState.currentTurn + 1 ∧
    (stepUser s (.select choice (some td))).2
      = [ServiceCall.send ("NEXT_TURN_" ++ toString (s.gameState.currentTurn + 1))] ∧
    (stepUser s (.select choice (some td))).1.gameState.turnStep = TurnStep.concept ∧
    (stepUser s (.select choice (some td))).1.gameState.activeChallenge = some td := by
  have hge : ¬ s.gameState.currentTurn ≥ s.gameState.maxTurns := by omega
  simp [stepUser, handleOptionSelect, hch, hc, hge, clearedAfterCorrect]

/-- Witness for C6 at a concrete mid-game state with a successful fetch. -/
theorem correctChoice_nextTurn_witness :
    (clearedAfterCorrect grammarState "Se exige").gameState.activeChallenge = none ∧
    (stepUser grammarState (.select "Se exige" (some sampleTd))).1.gameState.currentTurn
      = grammarState.gameState.currentTurn + 1 ∧
    (stepUser grammarState (.select "Se exige" (some sampleTd))).2
      = [ServiceCall.send ("NEXT_TURN_" ++ toString (grammarState.gameState.currentTurn + 1))] ∧
    (stepUser grammarState (.select "Se exige" (some sampleTd))).1.gameState.turnStep
      = TurnStep.concept ∧
    (stepUser grammarState (.select "Se exige" (some sampleTd))).1.gameState.activeChallenge
      = some sampleTd :=
  correctChoice_nextTurn grammarState sampleTd "Se exige" sampleTd rfl rfl rfl rfl
    (by decide)

/-- C3: a non-empty phase-1 submission always moves `turnStep` to `grammar`
and issues exactly the bridge call; on bridge failure the Challenge (and in
particular its `spanishConcept`) is unchanged, on success the returned
(trimmed) text replaces `spanishConcept`. -/
theorem bridge_fallback (s : ControllerState) (ch : GameTurnData)
    (input : String) (bridgeOutcome : Option String)
    (hch : s.gameState.activeChallenge = some ch)
    (hne : jsTrim input ≠ "") :
    (stepUser s (.english input bridgeOutcome)).1.gameState.turnStep
      = TurnStep.grammar ∧
    (stepUser s (.english input bridgeOutcome)).2
      = [ServiceCall.bridge input ch.spanishConcept] ∧
    (bridgeOutcome = none →
      (stepUser s (.english input bridgeOutcome)).1.gameState.activeChallenge
        = some ch) ∧
    ∀ t, bridgeOutcome = some t →
      (stepUser s (.english input bridgeOutcome)).1.gameState.activeChallenge
        = some { ch with spanishConcept := jsTrim t } := by
  refine ⟨?_, ?_, ?_, ?_⟩
  · simp [stepUser, handleEnglishSubmit, hch, hne]
  · simp [stepUser, handleEnglishSubmit, hch, hne]
  · intro hb
    subst hb
    simp [stepUser, handleEnglishSubmit, hch, hne, generateBridgeResponse]
  · intro t hb
    subst hb
    simp [stepUser, handleEnglishSubmit, hch, hne, generateBridgeResponse]

/-- Witness for C3 at a concrete state, once with a failed and once with a
successful bridge call (two instantiations of the same theorem). -/
theorem bridge_fallback_witness :
    (stepUser grammarState (.english "keep quiet" none)).1.gameState.turnStep
      = TurnStep.grammar ∧
    (stepUser grammarState (.english "keep quiet" none)).1.gameState.activeChallenge
      = some sampleTd ∧
    (stepUser grammarState (.english "keep quiet" (some " Indeed. "))).1.gameState.activeChallenge
      = some { sampleTd with spanishConcept := jsTrim " Indeed. " } := by
  refine ⟨?_, ?_, ?_⟩
  · exact (bridge_fallback grammarState sampleTd "keep quiet" none rfl (by decide)).1
  · exact (bridge_fallback grammarState sampleTd "keep quiet" none rfl
      (by decide)).2.2.1 rfl
  · exact (bridge_fallback grammarState sampleTd "keep quiet" (some " Indeed. ") rfl
      (by decide)).2.2.2 " Indeed. " rfl

/-- C7: a phase-1 submission that is empty after trimming changes nothing at
all (state identical, including the chat history) and issues no service
call. -/
theorem emptySubmission_noop (s : ControllerState) (input : String)
    (bridgeOutcome : Option String) (h : jsTrim input = "") :
    stepUser s (.english input bridgeOutcome) = (s, []) := by
  cases hch : s.gameState.activeChallenge with
  | none => simp [stepUser, handleEnglishSubmit, hch]
  | some ch => simp [stepUser, handleEnglishSubmit, hch, h]

/-- Witness for C7 on a whitespace-only submission. -/
theorem emptySubmission_noop_witness :
    stepUser grammarState (.english "   " (some "ignored")) = (grammarState, []) :=
  emptySubmission_noop grammarState "   " (some "ignored") (by decide)

/-- C9: if the initial load throws, the session ends in `status = 'error'`
(the source's name for the spec's `failed`) with no active Challenge and an
empty chat history, and this state is terminal: no later event changes it
and no service call beyond the failed initial load is ever issued. -/
theorem initialLoadFailure_terminal :
    ∀ evs : List RawEvent,
      (runRaw .fail evs).1.gameState.status = Status.error ∧
      (runRaw .fail evs).1.gameState.activeChallenge = none ∧
      (runRaw .fail evs).1.messages = [] ∧
      (runRaw .fail evs).2
        = [ServiceCall.initChat, ServiceCall.send "START_GAME_MIZZOU_EDITION"] := by
  intro evs
  have hs : (startQuest initState none).1.gameState.activeChallenge = none := rfl
  have hrr : runRaw .fail evs = startQuest initState none := by
    show run (deliveredChallenge (sendMessage .fail)) (evs.map toUserEvent) = _
    rw [show deliveredChallenge (sendMessage .fail) = none from rfl]
    unfold run
    exact foldl_stuck (evs.map toUserEvent) (startQuest initState none) hs
  rw [hrr]
  exact ⟨rfl, rfl, rfl, rfl⟩

/-! ## Fence-stripping lemmas (towards C8) -/

theorem beq_nl_tick : (('\n' : Char) == '\x60') = false := by decide

theorem beq_tick_nl : (('\x60' : Char) == '\n') = false := by decide

theorem stripAux_nil (fuel : Nat) : stripAux fuel [] = [] := by
  cases fuel <;> rfl

theorem hasTripleTick_tail (c : Char) (cs : List Char)
    (h : hasTripleTick (c :: cs) = false) : hasTripleTick cs = false := by
  match cs with
  | [] => rfl
  | [_] => rfl
  | c2 :: c3 :: rest =>
    simp [hasTripleTick] at h ⊢
    exact h.2

/-- A ```` ``` ```` prefix is a triple backtick. -/
theorem tick3_prefix_triple (cs : List Char) (h : tick3.isPrefixOf cs = true) :
    hasTripleTick cs = true := by
  match cs with
  | [] => simp [tick3, List.isPrefixOf] at h
  | [c1] => simp [tick3, List.isPrefixOf] at h
  | [c1, c2] => simp [tick3, List.isPrefixOf] at h
  | c1 :: c2 :: c3 :: rest =>
    simp [tick3, List.isPrefixOf] at h
    obtain ⟨e1, e2, e3⟩ := h
    subst e1; subst e2; subst e3
    simp [hasTripleTick]

/-- A newline-plus-``` prefix contains a triple backtick. -/
theorem tick3nl_prefix_triple (cs : List Char) (h : tick3nl.isPrefixOf cs = true) :
    hasTripleTick cs = true := by
  match cs with
  | [] => simp [tick3nl, List.isPrefixOf] at h
  | [c1] => simp [tick3nl, List.isPrefixOf] at h
  | [c1, c2] => simp [tick3nl, List.isPrefixOf] at h
  | [c1, c2, c3] => simp [tick3nl, List.isPrefixOf] at h
  | c1 :: c2 :: c3 :: c4 :: rest =>
    simp [tick3nl, List.isPrefixOf] at h
    obtain ⟨e1, e2, e3, e4⟩ := h
    subst e1; subst e2; subst e3; subst e4
    simp [hasTripleTick, beq_nl_tick]

/-- On text without triple backticks the regex never matches, so the global
replace is the identity (for any fuel: running out of fuel also returns the
input unchanged). -/
theorem stripAux_noTriple (cs : List Char) (h : hasTripleTick cs = false) :
    ∀ fuel, stripAux fuel cs = cs := by
  induction cs with
  | nil => intro fuel; exact stripAux_nil fuel
  | cons c cs ih =>
    intro fuel
    cases fuel with
    | zero => rfl
    | succ f =>
      have h1 : tick3nl.isPrefixOf (c :: cs) = false := by
        cases hp : tick3nl.isPrefixOf (c :: cs)
        · rfl
        · rw [tick3nl_prefix_triple _ hp] at h; exact Bool.noConfusion h
      have h2 : tick3.isPrefixOf (c :: cs) = false := by
        cases hp : tick3.isPrefixOf (c :: cs)
        · rfl
        · rw [tick3_prefix_triple _ hp] at h; exact Bool.noConfusion h
      simp [stripAux, h1, h2, ih (hasTripleTick_tail c cs h) f]

/-- On a fence-free text followed by the closing `"\n```"`, the
newline-plus-``` alternative cannot fire before the closing fence. -/
theorem tick3nl_not_prefix_append (c : Char) (cs : List Char)
    (h : hasTripleTick (c :: cs) = false) :
    tick3nl.isPrefixOf (c :: (cs ++ tick3nl)) = false := by
  match cs with
  | [] => simp [tick3nl, List.isPrefixOf, beq_tick_nl]
  | [c2] => simp [tick3nl, List.isPrefixOf, beq_tick_nl]
  | [c2, c3] => simp [tick3nl, List.isPrefixOf, beq_tick_nl]
  | c2 :: c3 :: c4 :: rest =>
    cases hp : tick3nl.isPrefixOf (c :: ((c2 :: c3 :: c4 :: rest) ++ tick3nl))
    · rfl
    · exfalso
      simp [tick3nl, List.isPrefixOf] at hp
      obtain ⟨e1, e2, e3, e4⟩ := hp
      subst e1; subst e2; subst e3; subst e4
      simp [hasTripleTick, beq_nl_tick] at h

/-- Likewise for the bare ```` ``` ```` alternative. -/
theorem tick3_not_prefix_append (c : Char) (cs : List Char)
    (h : hasTripleTick (c :: cs) = false) :
    tick3.isPrefixOf (c :: (cs ++ tick3nl)) = false := by
  match cs with
  | [] => simp [tick3, tick3nl, List.isPrefixOf, beq_tick_nl]
  | [c2] => simp [tick3, tick3nl, List.isPrefixOf, beq_tick_nl]
  | c2 :: c3 :: rest =>
    cases hp : tick3.isPrefixOf (c :: ((c2 :: c3 :: rest) ++ tick3nl))
    · rfl
    · exfalso
      simp [tick3, List.isPrefixOf] at hp
      obtain ⟨e1, e2, e3⟩ := hp
      subst e1; subst e2; subst e3
      simp [hasTripleTick] at h

/-- Stripping a fence-free text followed by the closing fence removes
exactly that closing fence. -/
theorem stripAux_append (cs : List Char) (h : hasTripleTick cs = false) :
    ∀ fuel, cs.length < fuel → stripAux fuel (cs ++ tick3nl) = cs := by
  induction cs with
  | nil =>
    intro fuel hf
    cases fuel with
    | zero => omega
    | succ f =>
      have hp : tick3nl.isPrefixOf ([] ++ tick3nl) = true := by decide
      simp only [List.nil_append] at hp ⊢
      simp [stripAux, hp, tick3nl, stripAux_nil]
  | cons c cs ih =>
    intro fuel hf
    cases fuel with
    | zero => omega
    | succ f =>
      have h1 := tick3nl_not_prefix_append c cs h
      have h2 := tick3_not_prefix_append c cs h
      have hf' : cs.length < f := by
        simp only [List.length_cons] at hf
        omega
      simp only [List.cons_append]
      simp [stripAux, h1, h2]
      exact ih (hasTripleTick_tail c cs h) f hf'

/-- Stripping the full wrapped payload ``` ```json\n <payload> \n``` ```
yields the payload, provided the payload itself contains no triple
backtick. -/
theorem stripAux_wrapped (cs : List Char) (h : hasTripleTick cs = false)
    (fuel : Nat) (hf : cs.length + 1 < fuel) :
    stripAux fuel
        ('\x60' :: '\x60' :: '\x60' :: 'j' :: 's' :: 'o' :: 'n' :: '\n'
          :: (cs ++ tick3nl))
      = cs := by
  cases fuel with
  | zero => omega
  | succ f =>
    have h1 : tick3nl.isPrefixOf
        ('\x60' :: '\x60' :: '\x60' :: 'j' :: 's' :: 'o' :: 'n' :: '\n'
          :: (cs ++ tick3nl)) = false := by
      simp [tick3nl, List.isPrefixOf, beq_nl_tick]
    have h2 : tick3.isPrefixOf
        ('\x60' :: '\x60' :: '\x60' :: 'j' :: 's' :: 'o' :: 'n' :: '\n'
          :: (cs ++ tick3nl)) = true := by
      simp [tick3, List.isPrefixOf]
    have hd : dropJson ('j' :: 's' :: 'o' :: 'n' :: '\n' :: (cs ++ tick3nl))
        = cs ++ tick3nl := by
      simp [dropJson, List.isPrefixOf]
    simp only [stripAux, h1, h2, Bool.false_eq_true, if_false, if_true,
      List.drop_succ_cons, List.drop_zero, hd]
    exact stripAux_append cs h f (by omega)

/-- Lemma: `stripFences` is the identity on fence-free strings. -/
theorem stripFences_id (s : String) (h : hasTripleTick s.data = false) :
    stripFences s = s := by
  rw [stripFences, stripAux_noTriple s.data h]

/-- Lemma: `stripFences` unwraps a payload wrapped in a ```` ```json ... ``` ````
fence block. -/
theorem stripFences_wrapped (s : String) (h : hasTripleTick s.data = false) :
    stripFences ("```json\n" ++ s ++ "\n```") = s := by
  have happ : ∀ a b : String, (a ++ b).data = a.data ++ b.data := fun a b => rfl
  have hd : ("```json\n" ++ s ++ "\n```").data
      = '\x60' :: '\x60' :: '\x60' :: 'j' :: 's' :: 'o' :: 'n' :: '\n'
          :: (s.data ++ tick3nl) := by
    rw [happ, happ]
    rw [show "```json\n".data
        = ['\x60', '\x60', '\x60', 'j', 's', 'o', 'n', '\n'] from rfl]
    rw [show "\n```".data = tick3nl from rfl]
    simp [List.append_assoc]
  rw [stripFences, hd]
  have hlen : ('\x60' :: '\x60' :: '\x60' :: 'j' :: 's' :: 'o' :: 'n' :: '\n'
      :: (s.data ++ tick3nl)).length = s.data.length + 12 := by
    simp [tick3nl]
  rw [hlen, stripAux_wrapped s.data h _ (by omega)]

/-- C8: a service payload that parses as a Challenge, when wrapped in an
incidental ```` ```json ... ``` ```` fenced block, is stripped before
structural parsing and yields exactly the same Challenge as the unwrapped
payload. -/
theorem fencedPayload_sameChallenge (s : String) (td : GameTurnData)
    (h1 : hasTripleTick s.data = false)
    (h2 : parseGameTurn (jsTrim s) = some td) :
    sendMessage (.ok (some ("```json\n" ++ s ++ "\n```")))
      = some (.challenge td) ∧
    sendMessage (.ok (some s)) = some (.challenge td) := by
  have hs : s ≠ "" := by
    intro he
    rw [he, show jsTrim "" = "" from rfl,
      show parseGameTurn "" = none from rfl] at h2
    exact Option.noConfusion h2
  obtain ⟨j, hj, hjt⟩ : ∃ j, parseJson (jsTrim s) = some j
      ∧ toGameTurnData j = some td := by
    cases hp : parseJson (jsTrim s) with
    | none => unfold parseGameTurn at h2; rw [hp] at h2; simp at h2
    | some j =>
      unfold parseGameTurn at h2; rw [hp] at h2; simp at h2
      exact ⟨j, rfl, h2⟩
  have happ : ∀ a b : String, (a ++ b).data = a.data ++ b.data := fun a b => rfl
  have hw : ("```json\n" ++ s ++ "\n```") ≠ "" := by
    intro he
    have hdata := congrArg String.data he
    rw [happ, happ] at hdata
    rw [show "```json\n".data
        = ['\x60', '\x60', '\x60', 'j', 's', 'o', 'n', '\n'] from rfl] at hdata
    exact List.noConfusion hdata
  constructor
  · have hclean : cleanText (some ("```json\n" ++ s ++ "\n```")) = jsTrim s := by
      show jsTrim (stripFences
        (if ("```json\n" ++ s ++ "\n```") = "" then "\x7b\x7d"
          else "```json\n" ++ s ++ "\n```")) = jsTrim s
      rw [if_neg hw, stripFences_wrapped s h1]
    simp [sendMessage, hclean, hj, hjt]
  · have hclean : cleanText (some s) = jsTrim s := by
      show jsTrim (stripFences (if s = "" then "\x7b\x7d" else s)) = jsTrim s
      rw [if_neg hs, stripFences_id s h1]
    simp [sendMessage, hclean, hj, hjt]

/-- Witness for C8 on a realistic concrete payload. -/
theorem fencedPayload_sameChallenge_witness :
    sendMessage (.ok (some ("```json\n" ++ samplePayload ++ "\n```")))
      = some (.challenge sampleTd) ∧
    sendMessage (.ok (some samplePayload)) = some (.challenge sampleTd) :=
  fencedPayload_sameChallenge samplePayload sampleTd (by decide) (by decide)

/-! ## C1: placeholder substitution and the activeChallenge/status iff -/

/-- One step preserves "an active Challenge is present iff the status is
`playing`", provided the step's next-turn fetch (if any) did not throw. -/
theorem stepUser_challenge_iff (s : ControllerState) (e : UserEvent)
    (he : fetchOk e = true)
    (h : s.gameState.activeChallenge.isSome = true ↔
      s.gameState.status = Status.playing) :
    (stepUser s e).1.gameState.activeChallenge.isSome = true ↔
      (stepUser s e).1.gameState.status = Status.playing := by
  cases e with
  | english input b =>
    cases hch : s.gameState.activeChallenge with
    | none => simpa [stepUser, handleEnglishSubmit, hch] using h
    | some ch =>
      by_cases ht : jsTrim input = ""
      · simpa [stepUser, handleEnglishSubmit, hch, ht] using h
      · have hplay : s.gameState.status = Status.playing := h.mp (by simp [hch])
        simp [stepUser, handleEnglishSubmit, hch, ht, hplay]
  | select choice f =>
    cases hch : s.gameState.activeChallenge with
    | none => simpa [stepUser, handleOptionSelect, hch] using h
    | some ch =>
      by_cases hc : choice = ch.correctAnswer
      · by_cases hmax : s.gameState.currentTurn ≥ s.gameState.maxTurns
        · simp [stepUser, handleOptionSelect, hch, hc, hmax, clearedAfterCorrect]
        · cases f with
          | none => simp [fetchOk] at he
          | some td =>
            have hplay : s.gameState.status = Status.playing := h.mp (by simp [hch])
            simp [stepUser, handleOptionSelect, hch, hc, hmax, clearedAfterCorrect,
              hplay]
      · simpa [stepUser, handleOptionSelect, hch, hc] using h

/-- C1 (amended): the placeholder Challenge (a well-formed Challenge with
error location label, the single choice "Reload" and `isGameOver = false`)
is substituted exactly when `JSON.parse` *throws* on the cleaned payload
(syntactically invalid JSON).  A payload that parses as JSON is delivered
as-is with no substitution, whether it has the Challenge shape or not — in
particular the source's own `"{}"` default for an empty response becomes an
empty garbage `turnData`, not the placeholder.  When a non-bridging call
itself throws, nothing is substituted either: a thrown initial load sets
`status = 'error'`, and a thrown next-turn fetch leaves the session
`playing` with `activeChallenge` null — see the counterexample.  The
invariant "`activeChallenge` is non-null iff `status = 'playing'`" holds
for every state reachable through Challenge-or-placeholder deliveries
without a thrown next-turn fetch. -/
theorem placeholder_and_challengeIff :
    (∀ raw, parseJson (cleanText raw) = none →
        sendMessage (.ok raw) = some (.challenge connectionErrorData)) ∧
    (∀ raw j td, parseJson (cleanText raw) = some j →
        toGameTurnData j = some td →
        sendMessage (.ok raw) = some (.challenge td)) ∧
    (∀ raw j, parseJson (cleanText raw) = some j →
        toGameTurnData j = none →
        sendMessage (.ok raw) = some (.garbage j)) ∧
    sendMessage (.ok none) = some (.garbage (Json.jobj [])) ∧
    connectionErrorData.locationName = "Connection Error" ∧
    connectionErrorData.options = ["Reload"] ∧
    connectionErrorData.isGameOver = some false ∧
    ∀ (fetch0 : Option GameTurnData) (evs : List UserEvent),
      evs.all fetchOk = true →
      ((run fetch0 evs).1.gameState.activeChallenge.isSome = true ↔
        (run fetch0 evs).1.gameState.status = Status.playing) := by
  refine ⟨?_, ?_, ?_, rfl, rfl, rfl, rfl, ?_⟩
  · intro raw hp
    simp [sendMessage, hp]
  · intro raw j td hj ht
    simp [sendMessage, hj, ht]
  · intro raw j hj ht
    simp [sendMessage, hj, ht]
  · intro fetch0 evs hall
    rw [run_fst]
    refine foldl_inv_all (fun s e he h => stepUser_challenge_iff s e he h) evs _ hall ?_
    cases fetch0 with
    | none => simp [startQuest, initState]
    | some td => simp [startQuest, initState]

/-- Witness for the amended C1: a syntactically garbled payload is replaced
by the placeholder, the `"{}"` default of an empty response is delivered as
garbage (not replaced), and the iff holds on a concrete
fetch-failure-free run. -/
theorem placeholder_and_challengeIff_witness :
    sendMessage (.ok (some "oops")) = some (.challenge connectionErrorData) ∧
    sendMessage (.ok none) = some (.garbage (Json.jobj [])) ∧
    ((run (some connectionErrorData) []).1.gameState.activeChallenge.isSome = true ↔
      (run (some connectionErrorData) []).1.gameState.status = Status.playing) := by
  have h := placeholder_and_challengeIff
  exact ⟨h.1 (some "oops") rfl,
    h.2.2.1 none (Json.jobj []) rfl rfl,
    h.2.2.2.2.2.2.2 (some connectionErrorData) [] (by decide)⟩

/-- Counterexample to C1 as stated: when the next-turn fetch *throws* (as
opposed to returning an unparseable payload), `handleOptionSelect`'s catch
block substitutes nothing, leaving a stable end-of-handler state — not the
transient between-challenges window — with `status = 'playing'` and
`activeChallenge = null`, and no placeholder Challenge anywhere.  Run:
initial payload "oops" (parse failure ⇒ placeholder Challenge "Reload"),
then the correct choice with a thrown next-turn fetch. -/
theorem thrownFetch_leavesNoChallenge :
    (runRaw (.ok (some "oops")) [.select "Reload" .fail]).1.gameState.status
      = Status.playing ∧
    (runRaw (.ok (some "oops")) [.select "Reload" .fail]).1.gameState.activeChallenge
      = none ∧
    (runRaw (.ok (some "oops")) [.select "Reload" .fail]).2
      = [ServiceCall.initChat, ServiceCall.send "START_GAME_MIZZOU_EDITION",
         ServiceCall.send "NEXT_TURN_2"] :=
  ⟨by decide, by decide, by decide⟩

/-! ## C10: the controller never reads `isGameOver` -/

/-- Lemma: `startQuest` commutes with erasing the `isGameOver` flag. -/
theorem startQuest_scrub (fetch0 : Option GameTurnData) :
    startQuest initState (fetch0.map scrubTd)
      = (scrubState (startQuest initState fetch0).1,
         (startQuest initState fetch0).2) := by
  cases fetch0 <;> rfl

/-- Every handler commutes with erasing the `isGameOver` flag: the
controller never branches on it. -/
theorem stepUser_scrub (s : ControllerState) (e : UserEvent) :
    stepUser (scrubState s) (scrubEvent e)
      = (scrubState (stepUser s e).1, (stepUser s e).2) := by
  cases e with
  | english input b =>
    cases hch : s.gameState.activeChallenge with
    | none =>
      have hch' : (scrubState s).gameState.activeChallenge = none := by
        simp [scrubState, hch]
      simp [stepUser, handleEnglishSubmit, hch, hch', scrubEvent, scrubState]
    | some ch =>
      have hch' : (scrubState s).gameState.activeChallenge = some (scrubTd ch) := by
        simp [scrubState, hch]
      by_cases ht : jsTrim input = ""
      · simp [stepUser, handleEnglishSubmit, hch, hch', ht, scrubEvent, scrubState]
      · simp [stepUser, handleEnglishSubmit, hch, hch', ht, scrubEvent, scrubState,
          scrubMsg, scrubTd, generateBridgeResponse, List.map_append]
  | select choice f =>
    cases hch : s.gameState.activeChallenge with
    | none =>
      have hch' : (scrubState s).gameState.activeChallenge = none := by
        simp [scrubState, hch]
      simp [stepUser, handleOptionSelect, hch, hch', scrubEvent, scrubState]
    | some ch =>
      have hch' : (scrubState s).gameState.activeChallenge = some (scrubTd ch) := by
        simp [scrubState, hch]
      by_cases hc : choice = ch.correctAnswer
      · by_cases hmax : s.gameState.currentTurn ≥ s.gameState.maxTurns
        · simp [stepUser, handleOptionSelect, hch, hch', hc, hmax, scrubEvent,
            scrubState, scrubMsg, scrubTd, clearedAfterCorrect, gradeMessage,
            List.map_append]
        · cases f with
          | none =>
            simp [stepUser, handleOptionSelect, hch, hch', hc, hmax, scrubEvent,
              scrubState, scrubMsg, scrubTd, clearedAfterCorrect, gradeMessage,
              List.map_append]
          | some td =>
            simp [stepUser, handleOptionSelect, hch, hch', hc, hmax, scrubEvent,
              scrubState, scrubMsg, scrubTd, clearedAfterCorrect, gradeMessage,
              turnMessage, List.map_append]
      · simp [stepUser, handleOptionSelect, hch, hch', hc, scrubEvent, scrubState,
          scrubMsg, scrubTd, gradeMessage, List.map_append]

/-- One fold step commutes with erasing the `isGameOver` flag. -/
theorem stepPair_scrub (acc : ControllerState × List ServiceCall) (e : UserEvent) :
    stepPair (scrubState acc.1, acc.2) (scrubEvent e)
      = (scrubState (stepPair acc e).1, (stepPair acc e).2) := by
  show ((stepUser (scrubState acc.1) (scrubEvent e)).1,
        acc.2 ++ (stepUser (scrubState acc.1) (scrubEvent e)).2) = _
  rw [stepUser_scrub]
  rfl

/-- The session fold commutes with erasing the `isGameOver` flag. -/
theorem run_scrub (evs : List UserEvent) :
    ∀ acc : ControllerState × List ServiceCall,
      (evs.map scrubEvent).foldl stepPair (scrubState acc.1, acc.2)
        = (scrubState (evs.foldl stepPair acc).1, (evs.foldl stepPair acc).2) := by
  induction evs with
  | nil => intro acc; rfl
  | cons e t ih =>
    intro acc
    simp only [List.map_cons, List.foldl_cons]
    rw [stepPair_scrub]
    exact ih _

/-- C10: the controller never reads the Challenge's `isGameOver` flag.  Two
runs whose inputs are identical except for the `isGameOver` value of any
delivered Challenge produce identical states (up to the stored copies of
the flag itself, erased by `scrubState`) and identical service-call logs —
in particular `status`, `currentTurn`, `turnStep` and the finish decision
coincide, so reaching `finished` is decided solely by `currentTurn` against
`maxTurns`. -/
theorem isGameOver_noninterference :
    ∀ (fetch0 fetch0' : Option GameTurnData) (evs evs' : List UserEvent),
      fetch0.map scrubTd = fetch0'.map scrubTd →
      evs.map scrubEvent = evs'.map scrubEvent →
      scrubState (run fetch0 evs).1 = scrubState (run fetch0' evs').1 ∧
      (run fetch0 evs).2 = (run fetch0' evs').2 := by
  intro fetch0 fetch0' evs evs' h0 hev
  have e1 : (evs.map scrubEvent).foldl stepPair
        (scrubState (startQuest initState fetch0).1, (startQuest initState fetch0).2)
      = (scrubState (run fetch0 evs).1, (run fetch0 evs).2) :=
    run_scrub evs (startQuest initState fetch0)
  have e2 : (evs'.map scrubEvent).foldl stepPair
        (scrubState (startQuest initState fetch0').1, (startQuest initState fetch0').2)
      = (scrubState (run fetch0' evs').1, (run fetch0' evs').2) :=
    run_scrub evs' (startQuest initState fetch0')
  rw [← startQuest_scrub] at e1 e2
  rw [h0, hev] at e1
  have hpair := e1.symm.trans e2
  rw [Prod.mk.injEq] at hpair
  exact hpair

/-- Witness for C10: two initial Challenges differing only in `isGameOver`. -/
theorem isGameOver_noninterference_witness :
    scrubState (run (some gameOverVariant) []).1
      = scrubState (run (some sampleTd) []).1 ∧
    (run (some gameOverVariant) []).2 = (run (some sampleTd) []).2 :=
  isGameOver_noninterference (some gameOverVariant) (some sampleTd) [] []
    (by decide) rfl

end Seaventura
